import Mathlib

/-!
A verification development for the uni-xervo model runtime.

The definitions below are shallow embeddings of the Rust source:
* `src/error.rs` — the `RuntimeError` taxonomy and `is_retryable`.
* `src/reliability.rs` — the circuit breaker (`CircuitBreakerWrapper::call`)
  and the instrumented wrapper retry loop.
* `src/api.rs` — `RetryConfig::get_backoff`, `ModelAliasSpec::validate`,
  `hash_json_value`, `ModelRuntimeKey::new`.
* `src/options_validation.rs` — `validate_provider_options` and helpers.
* `src/runtime.rs` — `ModelRuntime::register`, `resolve_and_load_internal`,
  `ModelRuntimeBuilder::build`.

Machine integers are modeled as `Nat` with explicit `% 2 ^ 64` where u64
wrapping matters.  Rust `Instant` values are modeled as `Nat` time stamps in
seconds (the unit of `open_wait_seconds`); `last.elapsed() >= Duration::from_secs(w)`
becomes `last + w ≤ now`, which is equivalent for monotone clocks.
Mutex-guarded critical sections of the Rust code are modeled as atomic
pure state transformers; the effectful pieces between critical sections
(the wrapped operation, `provider.load`, warmups) are modeled as oracles
giving their outcome.
-/

namespace UniXervo

/-- Error taxonomy from `src/error.rs` (`enum RuntimeError`). -/
inductive RuntimeError where
  | Config (msg : String)
  | ProviderNotFound (msg : String)
  | CapabilityMismatch (msg : String)
  | Load (msg : String)
  | ApiError (msg : String)
  | InferenceError (msg : String)
  | RateLimited
  | Unauthorized
  | Timeout
  | Unavailable
  deriving DecidableEq, Repr

/-- `RuntimeError::is_retryable` from `src/error.rs`:
`matches!(self, Self::RateLimited | Self::Timeout | Self::Unavailable)`. -/
def RuntimeError.is_retryable : RuntimeError → Bool
  | .RateLimited => true
  | .Timeout => true
  | .Unavailable => true
  | _ => false

/-- Circuit breaker `enum State` from `src/reliability.rs`. -/
inductive CBState where
  | Closed
  | Open
  | HalfOpen
  deriving DecidableEq, Repr

/-- `CircuitBreakerConfig` from `src/reliability.rs`. -/
structure CircuitBreakerConfig where
  failure_threshold : Nat
  open_wait_seconds : Nat
  deriving DecidableEq, Repr

/-- The mutex-guarded `struct Inner` of `CircuitBreakerWrapper`
(`src/reliability.rs`).  `last_failure` is an optional time stamp. -/
structure Inner where
  state : CBState
  failures : Nat
  last_failure : Option Nat
  config : CircuitBreakerConfig
  half_open_probe_in_flight : Bool
  deriving DecidableEq, Repr

/-- `CircuitBreakerWrapper::new`: initial inner state. -/
def cbNew (config : CircuitBreakerConfig) : Inner :=
  { state := .Closed
    failures := 0
    last_failure := none
    config := config
    half_open_probe_in_flight := false }

/-- Decision of the admission critical section of `CircuitBreakerWrapper::call`. -/
inductive Admit where
  | reject (e : RuntimeError)
  | run (is_probe : Bool)
  deriving DecidableEq, Repr

/-- Step 1 ("Check state") of `CircuitBreakerWrapper::call`
(`src/reliability.rs` lines 82-106), executed under the inner mutex:
decide whether to run the wrapped operation, transitioning Open to
HalfOpen when the wait period elapsed and marking the probe in flight. -/
def cbAdmit (inner : Inner) (now : Nat) : Inner × Admit :=
  match inner.state with
  | .Open =>
    match inner.last_failure with
    | some last =>
      if last + inner.config.open_wait_seconds ≤ now then
        ({ inner with state := .HalfOpen, half_open_probe_in_flight := true }, .run true)
      else
        (inner, .reject .Unavailable)
    | none =>
      -- the source falls through; `is_probe_call = (state == HalfOpen)` is false
      (inner, .run false)
  | .HalfOpen =>
    if inner.half_open_probe_in_flight then
      (inner, .reject .Unavailable)
    else
      ({ inner with half_open_probe_in_flight := true }, .run true)
  | .Closed => (inner, .run false)

/-- Step 3 ("Update state") of `CircuitBreakerWrapper::call`
(`src/reliability.rs` lines 111-139), executed under the inner mutex after
the wrapped operation finished.  `ok` is whether the operation succeeded;
`now` is the time stamp taken by `Instant::now()` on failure. -/
def cbSettle (inner : Inner) (is_probe : Bool) (ok : Bool) (now : Nat) : Inner :=
  if ok then
    if is_probe then
      { inner with state := .Closed, failures := 0, half_open_probe_in_flight := false }
    else if inner.state = .Closed then
      { inner with failures := 0 }
    else
      inner
  else
    let inner1 :=
      if is_probe then { inner with half_open_probe_in_flight := false } else inner
    let inner2 :=
      { inner1 with failures := inner1.failures + 1, last_failure := some now }
    if is_probe ∨ (inner2.state = .Closed ∧ inner2.config.failure_threshold ≤ inner2.failures) then
      { inner2 with state := .Open }
    else
      inner2

/-- One full `CircuitBreakerWrapper::call`.  `op` is the outcome the wrapped
operation would produce if executed (`none` = `Ok`, `some e` = `Err e`);
when the call is rejected the operation is never executed, so the result
cannot depend on `op`.  `tAdmit` and `tSettle` are the clock readings at the
two critical sections. -/
def cbCall (inner : Inner) (op : Option RuntimeError) (tAdmit tSettle : Nat) :
    Inner × Option RuntimeError :=
  match cbAdmit inner tAdmit with
  | (inner1, .reject e) => (inner1, some e)
  | (inner1, .run is_probe) => (cbSettle inner1 is_probe op.isNone tSettle, op)

/-- `RetryConfig` from `src/api.rs`. -/
structure RetryConfig where
  max_attempts : Nat
  initial_backoff_ms : Nat
  deriving DecidableEq, Repr

/-- `2 ^ 64`, the u64 wrap-around modulus. -/
def U64_MOD : Nat := 18446744073709551616

/-- `RetryConfig::get_backoff` from `src/api.rs` (result in milliseconds):
`self.initial_backoff_ms * 2u64.pow(attempt.saturating_sub(1))`.
Only the exponent subtraction saturates; the power and the multiplication
are plain u64 arithmetic, modeled here with release-mode wrapping
(`% 2 ^ 64`).  In debug builds the overflow panics instead. -/
def RetryConfig.get_backoff_ms (c : RetryConfig) (attempt : Nat) : Nat :=
  c.initial_backoff_ms * (2 ^ (attempt - 1) % U64_MOD) % U64_MOD

/-- The backoff arithmetic the spec prescribes:
`initial_backoff_ms × 2^(n−1)` with saturating u64 arithmetic. -/
def spec_saturating_backoff_ms (initial_backoff_ms attempt : Nat) : Nat :=
  min (initial_backoff_ms * 2 ^ (attempt - 1)) (U64_MOD - 1)

/-- `ModelTask` from `src/api.rs`. -/
inductive ModelTask where
  | Embed
  | Rerank
  | Generate
  deriving DecidableEq, Repr

/-- `WarmupPolicy` from `src/api.rs`; default is `Lazy`. -/
inductive WarmupPolicy where
  | Eager
  | Lazy
  | Background
  deriving DecidableEq, Repr

/-- `serde_json::Number`: an unsigned integer, a negative integer, or a
finite double.  The double case is modeled by its canonical display string,
which is exactly what `hash_json_value` consumes via `to_string`. -/
inductive JNum where
  | posInt (n : Nat)
  | negInt (i : Int)
  | float (repr : String)
  deriving DecidableEq, Repr

/-- `Number::to_string` (canonical decimal string). -/
def JNum.to_string : JNum → String
  | .posInt n => toString n
  | .negInt i => toString i
  | .float s => s

/-- `Number::as_u64`. -/
def JNum.as_u64 : JNum → Option Nat
  | .posInt n => some n
  | _ => none

/-- `serde_json::Value`.  Objects are association lists of entries; the
`serde_json::Map` invariant is that keys are unique. -/
inductive Json where
  | null
  | bool (b : Bool)
  | num (n : JNum)
  | str (s : String)
  | arr (vs : List Json)
  | obj (entries : List (String × Json))

/-- `ModelAliasSpec` from `src/api.rs`. -/
structure ModelAliasSpec where
  «alias» : String
  task : ModelTask
  provider_id : String
  model_id : String
  revision : Option String
  warmup : WarmupPolicy
  required : Bool
  timeout : Option Nat
  load_timeout : Option Nat
  retry : Option RetryConfig
  options : Json

/-- `ModelAliasSpec::validate` from `src/api.rs` lines 217-238.  String
emptiness (`String::is_empty`) and character containment
(`String::contains('/')`) are modeled over the character list of the
alias. -/
def ModelAliasSpec.validate (s : ModelAliasSpec) : Except RuntimeError Unit :=
  if s.«alias».data.isEmpty then
    .error (.Config "Alias cannot be empty")
  else if ¬ s.«alias».data.contains '/' then
    .error (.Config ("Alias " ++ s.«alias» ++ " must be in task/name format"))
  else if s.timeout = some 0 then
    .error (.Config "Inference timeout must be greater than 0")
  else if s.load_timeout = some 0 then
    .error (.Config "Load timeout must be greater than 0")
  else
    .ok ()

/-- UTF-8 encoding of one character (what `str::as_bytes` exposes). -/
def utf8Char (c : Char) : List Nat :=
  let n := c.toNat
  if n < 128 then [n]
  else if n < 2048 then
    [192 ||| (n >>> 6), 128 ||| (n &&& 63)]
  else if n < 65536 then
    [224 ||| (n >>> 12), 128 ||| ((n >>> 6) &&& 63), 128 ||| (n &&& 63)]
  else
    [240 ||| (n >>> 18), 128 ||| ((n >>> 12) &&& 63), 128 ||| ((n >>> 6) &&& 63),
      128 ||| (n &&& 63)]

/-- UTF-8 bytes of a string. -/
def strBytes (s : String) : List Nat :=
  s.data.foldr (fun c acc => utf8Char c ++ acc) []

/-- `Hash for str`: `write(self.as_bytes())` then `write_u8(0xff)`. -/
def strHashBytes (s : String) : List Nat :=
  strBytes s ++ [255]

/-- `Hasher::write_usize` / `write_u64` on a 64-bit little-endian target:
eight little-endian bytes. -/
def u64le (n : Nat) : List Nat :=
  [n % 256, (n >>> 8) % 256, (n >>> 16) % 256, (n >>> 24) % 256,
    (n >>> 32) % 256, (n >>> 40) % 256, (n >>> 48) % 256, (n >>> 56) % 256]

/-- Stable insertion of an entry into a key-sorted association list. -/
def insertByKey (p : String × Json) : List (String × Json) → List (String × Json)
  | [] => [p]
  | q :: rest => if p.1 ≤ q.1 then p :: q :: rest else q :: insertByKey p rest

/-- `entries.sort_by_key(|(k, _)| *k)` from `hash_json_value`: stable
ascending sort of object entries by key (Rust `String` order is byte-wise
on UTF-8, which coincides with code-point lexicographic order). -/
def sortByKey : List (String × Json) → List (String × Json)
  | [] => []
  | p :: rest => insertByKey p (sortByKey rest)

/-- Size bookkeeping for the termination of `jsonBytes` below. -/
theorem insertByKey_sizeOf (p : String × Json) (l : List (String × Json)) :
    sizeOf (insertByKey p l) = sizeOf (p :: l) := by
  induction l with
  | nil => rfl
  | cons q rest ih =>
    simp only [insertByKey]
    split
    · rfl
    · simp only [List.cons.sizeOf_spec, ih]
      omega

/-- Sorting object entries preserves list size (termination helper). -/
theorem sortByKey_sizeOf (l : List (String × Json)) :
    sizeOf (sortByKey l) = sizeOf l := by
  induction l with
  | nil => rfl
  | cons p rest ih =>
    simp only [sortByKey, insertByKey_sizeOf, List.cons.sizeOf_spec, ih]

mutual

/-- The byte stream that `hash_json_value` (src/api.rs lines 174-212) feeds
to the hasher: a discriminant byte per JSON variant, numbers via the UTF-8
bytes of their canonical decimal string, strings via their UTF-8 bytes
(each string write is terminated by `0xff` by `Hash for str`), array and
object lengths as little-endian `usize` words, and object entries sorted
by key before hashing. -/
def jsonBytes : Json → List Nat
  | .null => [0]
  | .bool b => [1, if b then 1 else 0]
  | .num n => 2 :: strHashBytes n.to_string
  | .str s => 3 :: strHashBytes s
  | .arr vs => 4 :: (u64le vs.length ++ jsonListBytes vs)
  | .obj m => 5 :: (u64le m.length ++ jsonEntriesBytes (sortByKey m))
termination_by v => sizeOf v
decreasing_by
  all_goals simp_wf
  all_goals simp only [sortByKey_sizeOf]
  all_goals omega

/-- Bytes of the elements of a JSON array, in order. -/
def jsonListBytes : List Json → List Nat
  | [] => []
  | v :: vs => jsonBytes v ++ jsonListBytes vs
termination_by l => sizeOf l
decreasing_by
  all_goals simp_wf
  all_goals omega

/-- Bytes of object entries: for each entry the key string (with its `0xff`
terminator) followed by the value, in list order. -/
def jsonEntriesBytes : List (String × Json) → List Nat
  | [] => []
  | (k, v) :: ps => strHashBytes k ++ (jsonBytes v ++ jsonEntriesBytes ps)
termination_by l => sizeOf l
decreasing_by
  all_goals simp_wf
  all_goals omega

end

/-- u64 wrap-around (`% 2 ^ 64`). -/
def wrap64 (n : Nat) : Nat := n % U64_MOD

/-- u64 rotate left by `b` bits (`0 < b < 64`, `x < 2 ^ 64`). -/
def rotl64 (x b : Nat) : Nat := ((x <<< b) % U64_MOD) ||| (x >>> (64 - b))

/-- The four SipHash state words. -/
structure SipState where
  v0 : Nat
  v1 : Nat
  v2 : Nat
  v3 : Nat
  deriving DecidableEq, Repr

/-- One SipHash round, as in Rust `core::hash::sip`. -/
def sipRound (s : SipState) : SipState :=
  let v0 := wrap64 (s.v0 + s.v1)
  let v1 := rotl64 s.v1 13
  let v1 := v1 ^^^ v0
  let v0 := rotl64 v0 32
  let v2 := wrap64 (s.v2 + s.v3)
  let v3 := rotl64 s.v3 16
  let v3 := v3 ^^^ v2
  let v0 := wrap64 (v0 + v3)
  let v3 := rotl64 v3 21
  let v3 := v3 ^^^ v0
  let v2 := wrap64 (v2 + v1)
  let v1 := rotl64 v1 17
  let v1 := v1 ^^^ v2
  let v2 := rotl64 v2 32
  ⟨v0, v1, v2, v3⟩

/-- Little-endian word from at most eight bytes. -/
def leWord : List Nat → Nat
  | [] => 0
  | b :: bs => b + 256 * leWord bs

/-- One message block with the single (`c = 1`) compression round of
SipHash-1-3: `v3 ^= m; SIPROUND; v0 ^= m`. -/
def sipCompress (s : SipState) (m : Nat) : SipState :=
  let s1 := { s with v3 := s.v3 ^^^ m }
  let s2 := sipRound s1
  { s2 with v0 := s2.v0 ^^^ m }

/-- Main loop and finalization of SipHash-1-3 over the remaining bytes;
`total` is the total message length.  The final partial block is
`(total % 256) << 56 | tail bytes`, then `v2 ^= 0xff` and three
finalization rounds. -/
def sipBlocks (total : Nat) (s : SipState) : List Nat → Nat
  | b0 :: b1 :: b2 :: b3 :: b4 :: b5 :: b6 :: b7 :: rest =>
    sipBlocks total (sipCompress s (leWord [b0, b1, b2, b3, b4, b5, b6, b7])) rest
  | rest =>
    let b := ((total % 256) <<< 56) ||| leWord rest
    let s1 := sipCompress s b
    let s2 := { s1 with v2 := s1.v2 ^^^ 255 }
    let s3 := sipRound (sipRound (sipRound s2))
    s3.v0 ^^^ s3.v1 ^^^ s3.v2 ^^^ s3.v3

/-- Rust `DefaultHasher::new()` is `SipHasher13::new_with_keys(0, 0)`; its
`finish()` over a stream of writes depends only on the concatenated bytes.
The initial state is the SipHash constants XORed with the zero keys. -/
def sipHash13 (msg : List Nat) : Nat :=
  sipBlocks msg.length
    ⟨0x736f6d6570736575, 0x646f72616e646f6d, 0x6c7967656e657261, 0x7465646279746573⟩
    msg

/-- `ModelRuntimeKey` from `src/api.rs`. -/
structure ModelRuntimeKey where
  task : ModelTask
  provider_id : String
  model_id : String
  revision : Option String
  variant_hash : Nat
  deriving DecidableEq, Repr

/-- `ModelRuntimeKey::new` from `src/api.rs` lines 149-165: copy the spec
coordinates and hash the options JSON with `hash_json_value` into a
`DefaultHasher`. -/
def ModelRuntimeKey.new (spec : ModelAliasSpec) : ModelRuntimeKey :=
  { task := spec.task
    provider_id := spec.provider_id
    model_id := spec.model_id
    revision := spec.revision
    variant_hash := sipHash13 (jsonBytes spec.options) }

mutual

/-- Canonical form of a JSON value: recursively canonicalize children and
sort object entries by key.  `canon a = canon b` is the formalization of
"`a` and `b` are structurally equal modulo object key ordering,
recursively" (for `serde_json` maps, whose keys are unique). -/
def canon : Json → Json
  | .null => .null
  | .bool b => .bool b
  | .num n => .num n
  | .str s => .str s
  | .arr vs => .arr (canonList vs)
  | .obj m => .obj (sortByKey (canonEntries m))

/-- Canonical forms of array elements. -/
def canonList : List Json → List Json
  | [] => []
  | v :: vs => canon v :: canonList vs

/-- Canonical forms of object entry values. -/
def canonEntries : List (String × Json) → List (String × Json)
  | [] => []
  | (k, v) :: ps => (k, canon v) :: canonEntries ps

end

mutual

/-- Byte trace of an already-canonical value: like `jsonBytes` but without
re-sorting object entries (proof device for `jsonBytes_canon`). -/
def rawBytes : Json → List Nat
  | .null => [0]
  | .bool b => [1, if b then 1 else 0]
  | .num n => 2 :: strHashBytes n.to_string
  | .str s => 3 :: strHashBytes s
  | .arr vs => 4 :: (u64le vs.length ++ rawListBytes vs)
  | .obj m => 5 :: (u64le m.length ++ rawEntriesBytes m)

/-- Bytes of array elements, in order, without canonicalization. -/
def rawListBytes : List Json → List Nat
  | [] => []
  | v :: vs => rawBytes v ++ rawListBytes vs

/-- Bytes of object entries, in list order, without sorting. -/
def rawEntriesBytes : List (String × Json) → List Nat
  | [] => []
  | (k, v) :: ps => strHashBytes k ++ (rawBytes v ++ rawEntriesBytes ps)

end

/-- Mapping entry values through `canon` commutes with sorted insertion,
because the insertion compares keys only. -/
theorem insertByKey_canonEntries (k : String) (v : Json) (l : List (String × Json)) :
    insertByKey (k, canon v) (canonEntries l) = canonEntries (insertByKey (k, v) l) := by
  induction l with
  | nil => simp [insertByKey, canonEntries]
  | cons q rest ih =>
    obtain ⟨k1, v1⟩ := q
    simp only [canonEntries, insertByKey]
    split
    · simp [canonEntries]
    · simp [canonEntries, ih]

/-- Mapping entry values through `canon` commutes with the stable key sort. -/
theorem sortByKey_canonEntries (l : List (String × Json)) :
    sortByKey (canonEntries l) = canonEntries (sortByKey l) := by
  induction l with
  | nil => simp [sortByKey, canonEntries]
  | cons q rest ih =>
    obtain ⟨k1, v1⟩ := q
    simp only [canonEntries, sortByKey, ih, insertByKey_canonEntries]

/-- Sorted insertion adds one entry to the length. -/
theorem insertByKey_length (p : String × Json) (l : List (String × Json)) :
    (insertByKey p l).length = l.length + 1 := by
  induction l with
  | nil => simp [insertByKey]
  | cons q rest ih =>
    simp only [insertByKey]
    split
    · simp
    · simp [ih]

/-- The stable key sort preserves length. -/
theorem sortByKey_length (l : List (String × Json)) :
    (sortByKey l).length = l.length := by
  induction l with
  | nil => rfl
  | cons p rest ih => simp [sortByKey, insertByKey_length, ih]

/-- `canonEntries` preserves length. -/
theorem canonEntries_length (l : List (String × Json)) :
    (canonEntries l).length = l.length := by
  induction l with
  | nil => rfl
  | cons p rest ih =>
    obtain ⟨k1, v1⟩ := p
    simp [canonEntries, ih]

/-- `canonList` preserves length. -/
theorem canonList_length (l : List Json) :
    (canonList l).length = l.length := by
  induction l with
  | nil => rfl
  | cons v rest ih => simp [canonList, ih]

/-- Membership in a sorted insertion. -/
theorem mem_insertByKey (p q : String × Json) (l : List (String × Json)) :
    p ∈ insertByKey q l → p = q ∨ p ∈ l := by
  induction l with
  | nil => simp [insertByKey]
  | cons r rest ih =>
    simp only [insertByKey]
    split
    · intro h
      rcases List.mem_cons.mp h with h1 | h1
      · exact Or.inl h1
      · exact Or.inr h1
    · intro h
      rcases List.mem_cons.mp h with h1 | h1
      · exact Or.inr (List.mem_cons.mpr (Or.inl h1))
      · rcases ih h1 with h2 | h2
        · exact Or.inl h2
        · exact Or.inr (List.mem_cons.mpr (Or.inr h2))

/-- The stable key sort permutes: members come from the original list. -/
theorem mem_sortByKey (p : String × Json) (l : List (String × Json)) :
    p ∈ sortByKey l → p ∈ l := by
  induction l with
  | nil => simp [sortByKey]
  | cons q rest ih =>
    intro h
    rcases mem_insertByKey p q (sortByKey rest) h with h1 | h1
    · exact h1 ▸ List.mem_cons_self q rest
    · exact List.mem_cons.mpr (Or.inr (ih h1))

/-- Pointwise agreement on elements lifts to `jsonListBytes`. -/
theorem jsonListBytes_congr (l : List Json)
    (h : ∀ v ∈ l, jsonBytes v = rawBytes (canon v)) :
    jsonListBytes l = rawListBytes (canonList l) := by
  induction l with
  | nil => simp [jsonListBytes, canonList, rawListBytes]
  | cons v rest ih =>
    simp only [jsonListBytes, canonList, rawListBytes]
    rw [h v (List.mem_cons_self v rest), ih (fun w hw => h w (List.mem_cons.mpr (Or.inr hw)))]

/-- Pointwise agreement on entry values lifts to `jsonEntriesBytes`. -/
theorem jsonEntriesBytes_congr (l : List (String × Json))
    (h : ∀ p ∈ l, jsonBytes p.2 = rawBytes (canon p.2)) :
    jsonEntriesBytes l = rawEntriesBytes (canonEntries l) := by
  induction l with
  | nil => simp [jsonEntriesBytes, canonEntries, rawEntriesBytes]
  | cons p rest ih =>
    obtain ⟨k1, v1⟩ := p
    simp only [jsonEntriesBytes, canonEntries, rawEntriesBytes]
    rw [h (k1, v1) (List.mem_cons_self (k1, v1) rest),
      ih (fun q hq => h q (List.mem_cons.mpr (Or.inr hq)))]

/-- The byte stream of `hash_json_value` is a function of the canonical
form: sorting object entries during hashing equals hashing the recursively
key-sorted value in order. -/
theorem jsonBytes_canon (v : Json) : jsonBytes v = rawBytes (canon v) := by
  have main : ∀ n, ∀ w : Json, sizeOf w ≤ n → jsonBytes w = rawBytes (canon w) := by
    intro n
    induction n with
    | zero =>
      intro w hw
      exact absurd hw (by cases w <;> simp)
    | succ n ih =>
      intro w hw
      match w with
      | .null => simp [jsonBytes, canon, rawBytes]
      | .bool b => simp [jsonBytes, canon, rawBytes]
      | .num m => simp [jsonBytes, canon, rawBytes]
      | .str s => simp [jsonBytes, canon, rawBytes]
      | .arr vs =>
        have hlen : (canonList vs).length = vs.length := canonList_length vs
        have helts : ∀ u ∈ vs, jsonBytes u = rawBytes (canon u) := by
          intro u hu
          have hsz : sizeOf u < sizeOf (Json.arr vs) := by
            have h1 : sizeOf u < sizeOf vs := List.sizeOf_lt_of_mem hu
            simp only [Json.arr.sizeOf_spec]
            omega
          exact ih u (by omega)
        simp only [jsonBytes, canon, rawBytes, hlen]
        rw [jsonListBytes_congr vs helts]
      | .obj m =>
        have hvals : ∀ p ∈ sortByKey m, jsonBytes p.2 = rawBytes (canon p.2) := by
          intro p hp
          have hm : p ∈ m := mem_sortByKey p m hp
          have h1 : sizeOf p < sizeOf m := List.sizeOf_lt_of_mem hm
          have h2 : sizeOf p.2 < sizeOf p := by
            obtain ⟨k1, v1⟩ := p
            simp only [Prod.mk.sizeOf_spec]
            omega
          have h3 : sizeOf (Json.obj m) = 1 + sizeOf m := by simp
          exact ih p.2 (by omega)
        simp only [jsonBytes, canon, rawBytes, sortByKey_canonEntries,
          sortByKey_length, canonEntries_length]
        rw [jsonEntriesBytes_congr (sortByKey m) hvals]
  exact main (sizeOf v) v (Nat.le_refl _)

/-- A concrete well-formed catalog spec used to instantiate witnesses. -/
def exampleSpec : ModelAliasSpec :=
  { «alias» := "embed/default"
    task := .Embed
    provider_id := "local/candle"
    model_id := "sentence-transformers/all-MiniLM-L6-v2"
    revision := none
    warmup := .Lazy
    required := false
    timeout := none
    load_timeout := none
    retry := none
    options := Json.null }

/-- C4: for specs differing only in their options JSON, structural equality
modulo object key ordering (equality of `canon` forms) yields equal
`ModelRuntimeKey`s; and the six distinct JSON variants `null`, `false`,
`0`, `""`, `[]`, `{}` used as options yield pairwise distinct keys (each
variant is hashed under a distinct discriminant byte, numbers via their
canonical decimal string, object entries sorted by key, arrays in order). -/
theorem runtime_key_options_contract :
    ∀ (base : ModelAliasSpec) (a b : Json),
      (canon a = canon b →
        ModelRuntimeKey.new { base with options := a } =
          ModelRuntimeKey.new { base with options := b }) ∧
      List.Pairwise (fun k1 k2 => k1 ≠ k2)
        (([Json.null, Json.bool false, Json.num (JNum.posInt 0), Json.str "",
          Json.arr [], Json.obj []]).map
          (fun o => ModelRuntimeKey.new { base with options := o })) := by
  intro base a b
  have e0 : jsonBytes Json.null = [0] := by simp [jsonBytes]
  have e1 : jsonBytes (Json.bool false) = [1, 0] := by simp [jsonBytes]
  have e2 : jsonBytes (Json.num (JNum.posInt 0)) = [2, 48, 255] := by
    simp only [jsonBytes, JNum.to_string]
    decide
  have e3 : jsonBytes (Json.str "") = [3, 255] := by
    simp only [jsonBytes]
    decide
  have e4 : jsonBytes (Json.arr []) = [4, 0, 0, 0, 0, 0, 0, 0, 0] := by
    simp only [jsonBytes, jsonListBytes]
    decide
  have e5 : jsonBytes (Json.obj []) = [5, 0, 0, 0, 0, 0, 0, 0, 0] := by
    simp only [jsonBytes, jsonEntriesBytes, sortByKey]
    decide
  have hne : ∀ (x y : Json), sipHash13 (jsonBytes x) ≠ sipHash13 (jsonBytes y) →
      ModelRuntimeKey.new { base with options := x } ≠
        ModelRuntimeKey.new { base with options := y } :=
    fun x y hxy heq => hxy (congrArg ModelRuntimeKey.variant_hash heq)
  constructor
  · intro h
    have hb : jsonBytes a = jsonBytes b := by
      rw [jsonBytes_canon a, jsonBytes_canon b, h]
    simp [ModelRuntimeKey.new, hb]
  · simp only [List.map]
    refine List.Pairwise.cons ?_ (List.Pairwise.cons ?_ (List.Pairwise.cons ?_
      (List.Pairwise.cons ?_ (List.Pairwise.cons ?_ ?_))))
    · intro k hk
      fin_cases hk
      · exact hne _ _ (by rw [e0, e1]; decide)
      · exact hne _ _ (by rw [e0, e2]; decide)
      · exact hne _ _ (by rw [e0, e3]; decide)
      · exact hne _ _ (by rw [e0, e4]; decide)
      · exact hne _ _ (by rw [e0, e5]; decide)
    · intro k hk
      fin_cases hk
      · exact hne _ _ (by rw [e1, e2]; decide)
      · exact hne _ _ (by rw [e1, e3]; decide)
      · exact hne _ _ (by rw [e1, e4]; decide)
      · exact hne _ _ (by rw [e1, e5]; decide)
    · intro k hk
      fin_cases hk
      · exact hne _ _ (by rw [e2, e3]; decide)
      · exact hne _ _ (by rw [e2, e4]; decide)
      · exact hne _ _ (by rw [e2, e5]; decide)
    · intro k hk
      fin_cases hk
      · exact hne _ _ (by rw [e3, e4]; decide)
      · exact hne _ _ (by rw [e3, e5]; decide)
    · intro k hk
      fin_cases hk
      · exact hne _ _ (by rw [e4, e5]; decide)
    · simp

/-- Witness for C4: the two key-order permutations of the object
`(a:1, b:2)` produce the same runtime key on a concrete spec. -/
theorem runtime_key_options_contract_witness :
    ModelRuntimeKey.new { exampleSpec with
        options := Json.obj [("a", Json.num (JNum.posInt 1)), ("b", Json.num (JNum.posInt 2))] } =
      ModelRuntimeKey.new { exampleSpec with
        options := Json.obj [("b", Json.num (JNum.posInt 2)), ("a", Json.num (JNum.posInt 1))] } :=
  (runtime_key_options_contract exampleSpec
      (Json.obj [("a", Json.num (JNum.posInt 1)), ("b", Json.num (JNum.posInt 2))])
      (Json.obj [("b", Json.num (JNum.posInt 2)), ("a", Json.num (JNum.posInt 1))])).1
    (by simp +decide [canon, canonEntries, sortByKey, insertByKey])

/-- C1: at most one probe executes at a time in HalfOpen.  A call admitted
to run as the probe leaves `half_open_probe_in_flight` set, and while the
flag is set every call arriving in HalfOpen is rejected in the admission
critical section with `Unavailable`: the breaker state is returned
untouched (state, failures, last_failure all unchanged) and the full call
result does not depend on the wrapped operation, which is therefore never
executed. -/
theorem half_open_single_probe :
    ∀ (inner : Inner) (now : Nat),
      ((cbAdmit inner now).2 = .run true →
        (cbAdmit inner now).1.half_open_probe_in_flight = true) ∧
      (inner.state = .HalfOpen → inner.half_open_probe_in_flight = true →
        cbAdmit inner now = (inner, .reject .Unavailable) ∧
        ∀ (op : Option RuntimeError) (tSettle : Nat),
          cbCall inner op now tSettle = (inner, some .Unavailable)) ∧
      ((inner.half_open_probe_in_flight = true → inner.state = .HalfOpen) →
        ((cbAdmit inner now).1.half_open_probe_in_flight = true →
          (cbAdmit inner now).1.state = .HalfOpen) ∧
        ∀ (p ok : Bool) (tSettle : Nat),
          (cbSettle inner p ok tSettle).half_open_probe_in_flight = true →
          (cbSettle inner p ok tSettle).state = .HalfOpen) := by
  intro inner now
  obtain ⟨st, fl, lf, cfg, pf⟩ := inner
  refine ⟨?_, ?_, ?_⟩
  · intro h
    cases st with
    | Closed => simp [cbAdmit] at h
    | Open =>
      cases lf with
      | none => simp [cbAdmit] at h
      | some last =>
        by_cases hle : last + cfg.open_wait_seconds ≤ now
        · simp [cbAdmit, hle]
        · simp [cbAdmit, hle] at h
    | HalfOpen =>
      cases pf
      · simp [cbAdmit]
      · simp [cbAdmit] at h
  · intro hst hpf
    simp only at hst hpf
    subst hst
    subst hpf
    refine ⟨by simp [cbAdmit], ?_⟩
    intro op tSettle
    simp [cbCall, cbAdmit]
  · intro hinv
    constructor
    · intro h
      cases st with
      | Closed =>
        simp only [cbAdmit] at h ⊢
        exact hinv h
      | Open =>
        cases lf with
        | none =>
          simp only [cbAdmit] at h ⊢
          exact hinv h
        | some last =>
          by_cases hle : last + cfg.open_wait_seconds ≤ now
          · simp [cbAdmit, hle]
          · simp only [cbAdmit] at h ⊢
            simp only [hle, if_false] at h ⊢
            exact hinv h
      | HalfOpen =>
        cases pf <;> simp [cbAdmit]
    · intro p ok tSettle h
      by_cases hth : cfg.failure_threshold ≤ fl + 1 <;>
        cases p <;> cases ok <;> cases st <;> cases pf <;>
          simp_all [cbSettle, apply_ite]

/-- Witness for C1: a concrete HalfOpen breaker with the probe flag set
rejects an arriving call unchanged. -/
theorem half_open_single_probe_witness :
    cbCall
      { state := .HalfOpen, failures := 0, last_failure := some 0,
        config := { failure_threshold := 5, open_wait_seconds := 10 },
        half_open_probe_in_flight := true }
      none 3 3 =
    ({ state := .HalfOpen, failures := 0, last_failure := some 0,
        config := { failure_threshold := 5, open_wait_seconds := 10 },
        half_open_probe_in_flight := true }, some .Unavailable) :=
  ((half_open_single_probe
      { state := .HalfOpen, failures := 0, last_failure := some 0,
        config := { failure_threshold := 5, open_wait_seconds := 10 },
        half_open_probe_in_flight := true } 3).2.1 rfl rfl).2 none 3

/-- C2: the circuit-breaker state machine of `CircuitBreakerWrapper::call`:
a new breaker starts Closed with zero failures and no failure time; a
success in Closed resets failures to 0; a failure in Closed increments
failures, opening the breaker exactly when the incremented count reaches
`failure_threshold` and recording the failure time; a call in Open before
the wait elapsed is rejected with `Unavailable` independently of the
wrapped operation (which is not invoked); once the wait elapsed the call
is admitted as the HalfOpen probe; a probe success moves to Closed with
zero failures; a probe failure moves back to Open recording the failure
time. -/
theorem circuit_breaker_state_machine :
    ∀ (inner : Inner) (cfg : CircuitBreakerConfig) (e : RuntimeError)
      (op : Option RuntimeError) (tA tS : Nat),
      (cbNew cfg = { state := .Closed, failures := 0, last_failure := none,
                     config := cfg, half_open_probe_in_flight := false }) ∧
      (inner.state = .Closed →
        cbCall inner none tA tS = ({ inner with failures := 0 }, none)) ∧
      (inner.state = .Closed → inner.failures + 1 < inner.config.failure_threshold →
        cbCall inner (some e) tA tS =
          ({ inner with failures := inner.failures + 1,
                        last_failure := some tS }, some e)) ∧
      (inner.state = .Closed → inner.config.failure_threshold ≤ inner.failures + 1 →
        cbCall inner (some e) tA tS =
          ({ inner with state := .Open, failures := inner.failures + 1,
                        last_failure := some tS }, some e)) ∧
      (∀ last, inner.state = .Open → inner.last_failure = some last →
        tA < last + inner.config.open_wait_seconds →
        cbCall inner op tA tS = (inner, some .Unavailable)) ∧
      (∀ last, inner.state = .Open → inner.last_failure = some last →
        last + inner.config.open_wait_seconds ≤ tA →
        cbAdmit inner tA =
          ({ inner with state := .HalfOpen, half_open_probe_in_flight := true },
            .run true) ∧
        cbCall inner none tA tS =
          ({ inner with state := .Closed, failures := 0, half_open_probe_in_flight := false },
            none) ∧
        cbCall inner (some e) tA tS =
          ({ inner with state := .Open, failures := inner.failures + 1,
                        last_failure := some tS, half_open_probe_in_flight := false },
            some e)) := by
  intro inner cfg e op tA tS
  refine ⟨rfl, ?_, ?_, ?_, ?_, ?_⟩
  · intro hst
    simp [cbCall, cbAdmit, cbSettle, hst]
  · intro hst hlt
    have hnot : ¬ inner.config.failure_threshold ≤ inner.failures + 1 :=
      Nat.not_le.mpr hlt
    simp [cbCall, cbAdmit, cbSettle, hst, hnot]
  · intro hst hge
    simp [cbCall, cbAdmit, cbSettle, hst, hge]
  · intro last hst hlf hlt
    have hnot : ¬ last + inner.config.open_wait_seconds ≤ tA :=
      Nat.not_le.mpr hlt
    simp [cbCall, cbAdmit, hst, hlf, hnot]
  · intro last hst hlf hle
    refine ⟨by simp [cbAdmit, hst, hlf, hle], ?_, ?_⟩
    · simp [cbCall, cbAdmit, cbSettle, hst, hlf, hle]
    · simp [cbCall, cbAdmit, cbSettle, hst, hlf, hle]

/-- Witness for C2: with threshold 2, a Closed breaker at one prior failure
opens on the next failure, recording the failure time. -/
theorem circuit_breaker_state_machine_witness :
    cbCall
      { state := .Closed, failures := 1, last_failure := none,
        config := { failure_threshold := 2, open_wait_seconds := 1 },
        half_open_probe_in_flight := false }
      (some .Timeout) 0 5 =
    ({ state := .Open, failures := 2, last_failure := some 5,
        config := { failure_threshold := 2, open_wait_seconds := 1 },
        half_open_probe_in_flight := false }, some .Timeout) :=
  (circuit_breaker_state_machine
      { state := .Closed, failures := 1, last_failure := none,
        config := { failure_threshold := 2, open_wait_seconds := 1 },
        half_open_probe_in_flight := false }
      { failure_threshold := 2, open_wait_seconds := 1 }
      .Timeout none 0 5).2.2.2.1 rfl (by decide)

/-- C6 (code-bug evidence): `RetryConfig::get_backoff` does not use
saturating u64 arithmetic as its own doc comment and the spec state — only
the exponent subtraction saturates.  At `initial_backoff_ms = 1`,
`attempt = 66` the code computes `1 * 2u64.pow(65)`, which overflows u64
(wrapping to 0 in release builds, panicking in debug builds), while the
documented saturating arithmetic yields `u64::MAX`. -/
theorem get_backoff_overflow_not_saturating :
    RetryConfig.get_backoff_ms { max_attempts := 3, initial_backoff_ms := 1 } 66 = 0 ∧
    spec_saturating_backoff_ms 1 66 = U64_MOD - 1 ∧
    RetryConfig.get_backoff_ms { max_attempts := 3, initial_backoff_ms := 1 } 66 ≠
      spec_saturating_backoff_ms 1 66 := by
  refine ⟨?_, ?_, ?_⟩ <;> decide

/-- C9: `ModelAliasSpec::validate` returns an error of kind Config exactly
when the alias is empty, or the alias contains no '/', or `timeout` is
`Some(0)`, or `load_timeout` is `Some(0)`; for every other combination of
field values it returns Ok. -/
theorem validate_config_iff :
    ∀ s : ModelAliasSpec,
      ((∃ msg, s.validate = .error (.Config msg)) ↔
        (s.«alias».data.isEmpty = true ∨ ¬ s.«alias».data.contains '/' = true ∨
          s.timeout = some 0 ∨ s.load_timeout = some 0)) ∧
      (¬ (s.«alias».data.isEmpty = true ∨ ¬ s.«alias».data.contains '/' = true ∨
          s.timeout = some 0 ∨ s.load_timeout = some 0) →
        s.validate = .ok ()) := by
  intro s
  by_cases c1 : s.«alias».data.isEmpty = true <;>
    by_cases c2 : '/' ∈ s.«alias».data <;>
      by_cases c3 : s.timeout = some 0 <;>
        by_cases c4 : s.load_timeout = some 0 <;>
          simp [ModelAliasSpec.validate, c1, c2, c3, c4]

/-- Witness for C9: the concrete example spec validates Ok. -/
theorem validate_config_iff_witness : exampleSpec.validate = .ok () :=
  (validate_config_iff exampleSpec).2 (by decide)

/-- The retry loop of `InstrumentedEmbeddingModel::embed`
(`src/reliability.rs` lines 156-190; the generator and reranker wrappers
are identical): `oracle i` is the per-attempt result of the i-th
invocation of the inner operation (1-based), with any per-attempt timeout
already mapped to `Err(Timeout)` exactly as the source does before
matching.  The loop re-enters only when the error is retryable and
`attempts < max_attempts`.  Structured as fuel recursion; fuel is never
exhausted from the entry point because re-entry requires
`attempt < maxAttempts`.  Returns the number of invocations made and the
final result. -/
def retryGo {V : Type} (oracle : Nat → Except RuntimeError V) (maxAttempts : Nat) :
    Nat → Nat → Nat × Except RuntimeError V
  | 0, attempt => (attempt, oracle attempt)
  | fuel + 1, attempt =>
    match oracle attempt with
    | .ok v => (attempt, .ok v)
    | .error e =>
      if e.is_retryable = true ∧ attempt < maxAttempts then
        retryGo oracle maxAttempts fuel (attempt + 1)
      else
        (attempt, .error e)

/-- One instrumented inference call:
`max_attempts = self.retry.as_ref().map(|r| r.max_attempts).unwrap_or(1)`,
attempts start at 1. -/
def instrumentedCall {V : Type} (oracle : Nat → Except RuntimeError V)
    (retry : Option RetryConfig) : Nat × Except RuntimeError V :=
  let maxA := (retry.map (fun r => r.max_attempts)).getD 1
  retryGo oracle maxA maxA 1

/-- Loop invariant for the retry loop: starting at any attempt not past
the first non-retryable-failure index `k` (and not past `maxAttempts`),
the loop stops at `min k maxAttempts` and returns that invocation. -/
theorem retryGo_first_nonretryable {V : Type} (oracle : Nat → Except RuntimeError V)
    (m k : Nat)
    (hpre : ∀ i, 1 ≤ i → i < k → ∃ e, oracle i = .error e ∧ e.is_retryable = true)
    (hk2 : ∀ e, oracle k = .error e → e.is_retryable = false) :
    ∀ fuel attempt, attempt + fuel = m + 1 → 1 ≤ attempt → attempt ≤ min k m →
      retryGo oracle m fuel attempt = (min k m, oracle (min k m)) := by
  intro fuel
  induction fuel with
  | zero =>
    intro attempt h1 h2 h3
    exact absurd h3 (by omega)
  | succ fuel ih =>
    intro attempt h1 h2 h3
    by_cases hak : attempt = k
    · subst hak
      have hmin : min attempt m = attempt := by omega
      cases hor : oracle attempt with
      | ok v => simp [retryGo, hor, hmin]
      | error e =>
        have hnr : e.is_retryable = false := hk2 e hor
        simp [retryGo, hor, hnr, hmin]
    · have hlt : attempt < k := by omega
      obtain ⟨e, hoe, hre⟩ := hpre attempt h2 hlt
      by_cases ham : attempt < m
      · have hnext : attempt + 1 ≤ min k m := by omega
        simp only [retryGo, hoe]
        rw [if_pos ⟨hre, ham⟩]
        exact ih (attempt + 1) (by omega) (by omega) hnext
      · have hmin : min k m = attempt := by omega
        simp [retryGo, hoe, ham, hmin]

/-- C5: with retry config `max_attempts = m ≥ 1` over an inner operation
whose k-th invocation is the first not to fail with a retryable error
(every earlier invocation fails retryably), the wrapper invokes the inner
operation exactly `min k m` times and returns the result of the last
invocation — in particular a non-retryable error is returned immediately
without a further attempt; with no retry config exactly one attempt is
made; and `is_retryable` holds exactly for RateLimited, Timeout,
Unavailable. -/
theorem retry_semantics :
    ∀ {V : Type} (oracle : Nat → Except RuntimeError V) (m k b : Nat),
      (1 ≤ m → 1 ≤ k →
        (∀ i, 1 ≤ i → i < k → ∃ e, oracle i = .error e ∧ e.is_retryable = true) →
        (∀ e, oracle k = .error e → e.is_retryable = false) →
        instrumentedCall oracle (some { max_attempts := m, initial_backoff_ms := b }) =
          (min k m, oracle (min k m))) ∧
      (instrumentedCall oracle none = (1, oracle 1)) ∧
      (∀ e : RuntimeError, e.is_retryable = true ↔
        (e = .RateLimited ∨ e = .Timeout ∨ e = .Unavailable)) := by
  intro V oracle m k b
  refine ⟨?_, ?_, ?_⟩
  · intro hm hk hpre hk2
    have h := retryGo_first_nonretryable oracle m k hpre hk2 m 1 (by omega) (by omega)
      (by omega)
    simpa [instrumentedCall] using h
  · cases hor : oracle 1 <;> simp [instrumentedCall, retryGo, hor]
  · intro e
    cases e <;> simp [RuntimeError.is_retryable]

/-- Witness for C5: an inner operation failing twice with RateLimited then
succeeding, under retry config (3, 10): three invocations, success. -/
theorem retry_semantics_witness :
    instrumentedCall
      (fun i => if i < 3 then (.error .RateLimited : Except RuntimeError Nat) else .ok 0)
      (some { max_attempts := 3, initial_backoff_ms := 10 }) = (3, .ok 0) := by
  have h := (retry_semantics
      (fun i => if i < 3 then (.error .RateLimited : Except RuntimeError Nat) else .ok 0)
      3 3 10).1 (by omega) (by omega)
    (fun i h1 h2 => ⟨.RateLimited, if_pos h2, rfl⟩)
    (fun e he => absurd he (by simp))
  simpa using h

/-- `Value::is_string`. -/
def Json.is_string : Json → Bool
  | .str _ => true
  | _ => false

/-- `Value::is_boolean`. -/
def Json.is_boolean : Json → Bool
  | .bool _ => true
  | _ => false

/-- `Value::as_u64` (succeeds exactly on unsigned integers). -/
def Json.as_u64 : Json → Option Nat
  | .num n => n.as_u64
  | _ => none

/-- `Value::as_array`. -/
def Json.as_array : Json → Option (List Json)
  | .arr vs => some vs
  | _ => none

/-- Discriminates the option shapes rejected by `as_object`: booleans,
numbers, strings and arrays (everything that is neither an object nor
null). -/
def Json.nonObjectNonNull : Json → Bool
  | .bool _ => true
  | .num _ => true
  | .str _ => true
  | .arr _ => true
  | _ => false

/-- `as_object` from `src/options_validation.rs` lines 46-58: `None` for
null, the map for objects, a Config error for every other type. -/
def as_object (provider_id : String) (options : Json) :
    Except RuntimeError (Option (List (String × Json))) :=
  match options with
  | .null => .ok none
  | .obj m => .ok (some m)
  | _ => .error (.Config ("Options for provider " ++ provider_id ++
      " must be a JSON object or null"))

/-- `reject_unknown_keys` (lines 61-75): error on the first key not in
`allowed`. -/
def reject_unknown_keys (provider_id : String) (m : List (String × Json))
    (allowed : List String) : Except RuntimeError Unit :=
  match m with
  | [] => .ok ()
  | (k, _) :: rest =>
    if ¬ allowed.contains k then
      .error (.Config ("Unknown option " ++ k ++ " for provider " ++ provider_id))
    else
      reject_unknown_keys provider_id rest allowed

/-- `require_string_keys` (lines 78-94): each listed key, when present,
must hold a string. -/
def require_string_keys (provider_id : String) (m : List (String × Json))
    (keys : List String) : Except RuntimeError Unit :=
  match keys with
  | [] => .ok ()
  | k :: rest =>
    match m.lookup k with
    | some value =>
      if value.is_string = false then
        .error (.Config ("Option " ++ k ++ " for provider " ++ provider_id ++
          " must be a string"))
      else
        require_string_keys provider_id m rest
    | none => require_string_keys provider_id m rest

/-- The `for key in ["force_cpu", "paged_attention"]` loop of
`validate_mistralrs_options`: listed keys, when present, must be booleans. -/
def require_boolean_keys (provider_id : String) (m : List (String × Json))
    (keys : List String) : Except RuntimeError Unit :=
  match keys with
  | [] => .ok ()
  | k :: rest =>
    match m.lookup k with
    | some value =>
      if value.is_boolean = false then
        .error (.Config ("Option " ++ k ++ " for provider " ++ provider_id ++
          " must be a boolean"))
      else
        require_boolean_keys provider_id m rest
    | none => require_boolean_keys provider_id m rest

/-- `require_positive_u64` (lines 97-117). -/
def require_positive_u64 (provider_id : String) (m : List (String × Json))
    (key : String) : Except RuntimeError Unit :=
  match m.lookup key with
  | none => .ok ()
  | some value =>
    match value.as_u64 with
    | none =>
      .error (.Config ("Option " ++ key ++ " for provider " ++ provider_id ++
        " must be a positive integer"))
    | some v =>
      if v = 0 then
        .error (.Config ("Option " ++ key ++ " for provider " ++ provider_id ++
          " must be greater than 0"))
      else
        .ok ()

/-- `require_embedding_dimensions` (lines 121-135). -/
def require_embedding_dimensions (provider_id : String) (task : ModelTask)
    (m : List (String × Json)) : Except RuntimeError Unit :=
  if (m.map Prod.fst).contains "embedding_dimensions" then
    match require_positive_u64 provider_id m "embedding_dimensions" with
    | .error e => .error e
    | .ok () =>
      if task ≠ ModelTask.Embed then
        .error (.Config "Option embedding_dimensions is only valid for embed tasks")
      else
        .ok ()
  else
    .ok ()

/-- `validate_string_keys_only` (lines 138-148). -/
def validate_string_keys_only (provider_id : String) (options : Json)
    (allowed_keys : List String) : Except RuntimeError Unit :=
  match as_object provider_id options with
  | .error e => .error e
  | .ok none => .ok ()
  | .ok (some m) =>
    match reject_unknown_keys provider_id m allowed_keys with
    | .error e => .error e
    | .ok () => require_string_keys provider_id m allowed_keys

/-- `validate_vertexai_options` (lines 152-173). -/
def validate_vertexai_options (provider_id : String) (task : ModelTask)
    (options : Json) : Except RuntimeError Unit :=
  match as_object provider_id options with
  | .error e => .error e
  | .ok none => .ok ()
  | .ok (some m) =>
    match reject_unknown_keys provider_id m
        ["api_token_env", "project_id", "location", "publisher",
          "embedding_dimensions"] with
    | .error e => .error e
    | .ok () =>
      match require_string_keys provider_id m
          ["api_token_env", "project_id", "location", "publisher"] with
      | .error e => .error e
      | .ok () => require_embedding_dimensions provider_id task m

/-- `validate_mistralrs_options` (lines 177-233). -/
def validate_mistralrs_options (provider_id : String) (task : ModelTask)
    (options : Json) : Except RuntimeError Unit :=
  match as_object provider_id options with
  | .error e => .error e
  | .ok none => .ok ()
  | .ok (some m) =>
    match reject_unknown_keys provider_id m
        ["isq", "force_cpu", "paged_attention", "max_num_seqs", "chat_template",
          "tokenizer_json", "embedding_dimensions", "gguf_files"] with
    | .error e => .error e
    | .ok () =>
      match require_string_keys provider_id m ["isq", "chat_template", "tokenizer_json"] with
      | .error e => .error e
      | .ok () =>
        match require_boolean_keys provider_id m ["force_cpu", "paged_attention"] with
        | .error e => .error e
        | .ok () =>
          match require_positive_u64 provider_id m "max_num_seqs" with
          | .error e => .error e
          | .ok () =>
            match require_embedding_dimensions provider_id task m with
            | .error e => .error e
            | .ok () =>
              match m.lookup "gguf_files" with
              | none => .ok ()
              | some value =>
                match value.as_array with
                | none =>
                  .error (.Config ("Option gguf_files for provider " ++ provider_id ++
                    " must be an array of strings"))
                | some items =>
                  if items.any (fun item => item.is_string = false) then
                    .error (.Config ("Option gguf_files for provider " ++ provider_id ++
                      " must be an array of strings"))
                  else
                    .ok ()

/-- `validate_provider_options` (src/options_validation.rs lines 15-42).
The source `match provider_id` with string literal arms is modeled as the
equivalent chain of equality tests; the default arm accepts anything. -/
def validate_provider_options (provider_id : String) (task : ModelTask)
    (options : Json) : Except RuntimeError Unit :=
  if provider_id = "remote/openai" ∨ provider_id = "remote/gemini" ∨
      provider_id = "remote/mistral" ∨ provider_id = "remote/voyageai" then
    validate_string_keys_only provider_id options ["api_key_env"]
  else if provider_id = "remote/anthropic" then
    validate_string_keys_only provider_id options ["api_key_env", "anthropic_version"]
  else if provider_id = "remote/cohere" then
    validate_string_keys_only provider_id options ["api_key_env", "input_type"]
  else if provider_id = "remote/azure-openai" then
    validate_string_keys_only provider_id options
      ["api_key_env", "resource_name", "api_version"]
  else if provider_id = "remote/vertexai" then
    validate_vertexai_options provider_id task options
  else if provider_id = "local/candle" ∨ provider_id = "local/fastembed" then
    validate_string_keys_only provider_id options ["cache_dir"]
  else if provider_id = "local/mistralrs" then
    validate_mistralrs_options provider_id task options
  else
    .ok ()

/-- The provider ids with a non-default arm in `validate_provider_options`. -/
def recognizedProviderIds : List String :=
  ["remote/openai", "remote/gemini", "remote/mistral", "remote/voyageai",
    "remote/anthropic", "remote/cohere", "remote/azure-openai", "remote/vertexai",
    "local/candle", "local/fastembed", "local/mistralrs"]

/-- C10: for every recognized provider id and every task,
`validate_provider_options` rejects boolean, number, string and array
options with an error of kind Config — only a JSON object (whose keys are
then checked) or null is accepted — while for unrecognized provider ids
every options value is accepted. -/
theorem options_validation_object_or_null :
    ∀ (provider_id : String) (task : ModelTask) (options : Json),
      (provider_id ∈ recognizedProviderIds → options.nonObjectNonNull = true →
        ∃ msg, validate_provider_options provider_id task options =
          .error (.Config msg)) ∧
      (provider_id ∈ recognizedProviderIds →
        validate_provider_options provider_id task Json.null = .ok ()) ∧
      (provider_id ∉ recognizedProviderIds →
        validate_provider_options provider_id task options = .ok ()) := by
  intro provider_id task options
  refine ⟨?_, ?_, ?_⟩
  · intro hmem hshape
    fin_cases hmem <;> cases options <;>
      simp_all [validate_provider_options, validate_string_keys_only,
        validate_vertexai_options, validate_mistralrs_options, as_object,
        Json.nonObjectNonNull]
  · intro hmem
    fin_cases hmem <;>
      simp [validate_provider_options, validate_string_keys_only,
        validate_vertexai_options, validate_mistralrs_options, as_object]
  · intro hmem
    simp only [recognizedProviderIds, List.mem_cons, List.not_mem_nil, or_false,
      not_or] at hmem
    obtain ⟨h1, h2, h3, h4, h5, h6, h7, h8, h9, h10, h11⟩ := hmem
    simp [validate_provider_options, h1, h2, h3, h4, h5, h6, h7, h8, h9, h10, h11]

/-- Witness for C10: `remote/openai` rejects a bare string as options, and
an unrecognized provider id accepts it. -/
theorem options_validation_object_or_null_witness :
    (∃ msg, validate_provider_options "remote/openai" ModelTask.Embed
      (Json.str "opts") = .error (.Config msg)) ∧
    validate_provider_options "custom/provider" ModelTask.Embed
      (Json.str "opts") = .ok () := by
  constructor
  · exact (options_validation_object_or_null "remote/openai" ModelTask.Embed
      (Json.str "opts")).1 (by decide) rfl
  · exact (options_validation_object_or_null "custom/provider" ModelTask.Embed
      (Json.str "opts")).2.2 (by decide)

/-- The two tables of `ModelRegistry` (src/runtime.rs lines 39-44):
`instances` caches loaded handles by dedup key; `loader_locks` holds the
keys whose per-key load gate is currently present in the lock table.
Handles are abstracted by the type `H`; both tables are association
lists. -/
structure RegistryState (H : Type) where
  instances : List (ModelRuntimeKey × H)
  loader_locks : List ModelRuntimeKey

/-- Oracle for the timed load section of `resolve_and_load_internal`:
the provider lookup fails, `provider.load` errors, the model warmup
errors, the load succeeds with a handle, or the whole section times out. -/
inductive LoadOutcome (H : Type) where
  | providerMissing
  | loadErr (e : RuntimeError)
  | warmupErr (e : RuntimeError)
  | success (h : H)
  | timeout

/-- `ModelRuntime::resolve_and_load_internal` (src/runtime.rs lines
184-287) as a state transformer over the registry.  The source first
computes `key = ModelRuntimeKey::new(spec)`; `key` and the spec's
provider id are taken as inputs here.  `concurrent` models a handle
stored by a concurrent loader between this call's lock acquisition and
its double-check; `outcome` is the oracle for the timed load section.
Fast path, per-key lock-entry creation, double-check (which removes the
lock entry on a hit), load error / warmup error / timeout / store, and
the final lock-entry removal all follow the source. -/
def resolve_and_load {H : Type} (st : RegistryState H) (key : ModelRuntimeKey)
    (provider_id : String) (concurrent : Option H) (outcome : LoadOutcome H) :
    RegistryState H × Except RuntimeError H :=
  match st.instances.lookup key with
  | some h => (st, .ok h)
  | none =>
    let st1 : RegistryState H :=
      if st.loader_locks.contains key then st
      else { st with loader_locks := key :: st.loader_locks }
    let st2 : RegistryState H :=
      match concurrent with
      | some h => { st1 with instances := (key, h) :: st1.instances }
      | none => st1
    match st2.instances.lookup key with
    | some h =>
      ({ st2 with loader_locks := st2.loader_locks.erase key }, .ok h)
    | none =>
      match outcome with
      | .timeout =>
        ({ st2 with loader_locks := st2.loader_locks.erase key }, .error .Timeout)
      | .providerMissing =>
        ({ st2 with loader_locks := st2.loader_locks.erase key },
          .error (.ProviderNotFound ("Provider " ++ provider_id ++ " not found")))
      | .loadErr e =>
        ({ st2 with loader_locks := st2.loader_locks.erase key }, .error e)
      | .warmupErr e =>
        ({ st2 with loader_locks := st2.loader_locks.erase key }, .error e)
      | .success h =>
        ({ instances := (key, h) :: st2.instances,
           loader_locks := st2.loader_locks.erase key }, .ok h)

/-- C3: after any terminal outcome of `resolve_and_load` — returned cached
handle (fast path or double-check hit), successful load, missing provider,
provider load error, warmup error, or load timeout — the `loader_locks`
table contains no entry for the spec's key, provided it contained none
when the call started (the entry alive during the call is the one this
call inserted, and every exit removes it). -/
theorem loader_locks_absent_after :
    ∀ {H : Type} (st : RegistryState H) (key : ModelRuntimeKey)
      (provider_id : String) (concurrent : Option H) (outcome : LoadOutcome H),
      st.loader_locks.contains key = false →
      (resolve_and_load st key provider_id concurrent outcome).1.loader_locks.contains key
        = false := by
  intro H st key pid concurrent outcome hno
  have hmem : key ∉ st.loader_locks := by simpa using hno
  unfold resolve_and_load
  cases hfast : st.instances.lookup key with
  | some h => simpa using hno
  | none =>
    simp only [hno, Bool.false_eq_true, if_false]
    cases concurrent with
    | none =>
      simp only [hfast]
      cases outcome <;> simp [List.erase_cons_head, hmem]
    | some h =>
      simp [List.lookup, List.erase_cons_head, hmem]

/-- A concrete dedup key used by witnesses. -/
def exampleKey : ModelRuntimeKey :=
  { task := .Embed
    provider_id := "local/candle"
    model_id := "test-model"
    revision := none
    variant_hash := 0 }

/-- Witness for C3: starting from an empty registry, a timed-out load
leaves no lock entry for the key. -/
theorem loader_locks_absent_after_witness :
    (resolve_and_load (⟨[], []⟩ : RegistryState Nat) exampleKey "local/candle"
      none .timeout).1.loader_locks.contains exampleKey = false :=
  loader_locks_absent_after (⟨[], []⟩ : RegistryState Nat) exampleKey "local/candle"
    none .timeout rfl

/-- The parts of `ModelRuntime` that `register` touches: the set of
registered provider ids and the alias → spec catalog map (association
list). -/
structure RuntimeModel where
  provider_ids : List String
  catalog : List (String × ModelAliasSpec)

/-- `ModelRuntime::register` (src/runtime.rs lines 54-72): validate the
spec, reject an unknown provider id (kind Config, message
"Unknown provider ..."), validate the provider options, reject a
duplicate alias (kind Config), insert into the catalog. -/
def ModelRuntime.register (rt : RuntimeModel) (spec : ModelAliasSpec) :
    Except RuntimeError RuntimeModel :=
  match spec.validate with
  | .error e => .error e
  | .ok () =>
    if ¬ rt.provider_ids.contains spec.provider_id then
      .error (.Config ("Unknown provider " ++ spec.provider_id ++
        " for alias " ++ spec.«alias»))
    else
      match validate_provider_options spec.provider_id spec.task spec.options with
      | .error e => .error e
      | .ok () =>
        if (rt.catalog.map Prod.fst).contains spec.«alias» then
          .error (.Config ("Alias " ++ spec.«alias» ++ " already exists"))
        else
          .ok { rt with catalog := rt.catalog ++ [(spec.«alias», spec)] }

/-- The catalog-validation loop at the start of `ModelRuntimeBuilder::build`
(src/runtime.rs lines 352-368): validate each spec, require a registered
provider (kind Config), validate options, reject duplicate aliases, and
accumulate the catalog map in insertion order. -/
def buildValidate (provider_ids : List String) :
    List ModelAliasSpec → List (String × ModelAliasSpec) →
      Except RuntimeError (List (String × ModelAliasSpec))
  | [], acc => .ok acc
  | spec :: rest, acc =>
    match spec.validate with
    | .error e => .error e
    | .ok () =>
      if ¬ provider_ids.contains spec.provider_id then
        .error (.Config ("Unknown provider " ++ spec.provider_id ++
          " for alias " ++ spec.«alias»))
      else
        match validate_provider_options spec.provider_id spec.task spec.options with
        | .error e => .error e
        | .ok () =>
          if (acc.map Prod.fst).contains spec.«alias» then
            .error (.Config "Duplicate alias in catalog")
          else
            buildValidate provider_ids rest (acc ++ [(spec.«alias», spec)])

/-- The Eager arm of the provider-warmup phase of `build` (src/runtime.rs
lines 377-385): serially await each provider warmup, wrapping the first
failure as kind Load.  `providers` pairs each provider id with its
`warmup()` outcome (`none` = Ok); HashMap iteration is serialized as list
order. -/
def eagerProviderWarmup : List (String × Option RuntimeError) →
    Except RuntimeError Unit
  | [] => .ok ()
  | (id, res) :: rest =>
    match res with
    | some _ => .error (.Load ("Failed to warmup provider " ++ id))
    | none => eagerProviderWarmup rest

/-- The provider-warmup phase of `build` (src/runtime.rs lines 376-404),
gated on the builder's global warmup policy: Eager blocks and aborts on
failure; Background spawns detached tasks and never fails `build`; Lazy is
a no-op. -/
def providerWarmupPhase (policy : WarmupPolicy)
    (providers : List (String × Option RuntimeError)) : Except RuntimeError Unit :=
  match policy with
  | .Eager => eagerProviderWarmup providers
  | .Background => .ok ()
  | .Lazy => .ok ()

/-- The model-warmup phase of `build` (src/runtime.rs lines 406-445),
gated per spec on `spec.warmup`.  `ro spec` is the outcome
`resolve_and_load` would produce for the spec during this phase.  An
Eager spec that fails aborts with the unwrapped error when required and is
logged and skipped otherwise; Background specs run detached; Lazy specs
are no-ops. -/
def modelWarmupPhase (ro : ModelAliasSpec → Except RuntimeError Unit) :
    List (String × ModelAliasSpec) → Except RuntimeError Unit
  | [] => .ok ()
  | (_, spec) :: rest =>
    match spec.warmup with
    | .Eager =>
      match ro spec with
      | .error e =>
        if spec.required then .error e
        else modelWarmupPhase ro rest
      | .ok () => modelWarmupPhase ro rest
    | .Background => modelWarmupPhase ro rest
    | .Lazy => modelWarmupPhase ro rest

/-- `ModelRuntimeBuilder::build` (src/runtime.rs lines 352-451): catalog
validation, provider-warmup phase, model-warmup phase; returns the catalog
map of the constructed runtime.  The provider ids available during
validation are those of `providers`. -/
def build (providers : List (String × Option RuntimeError))
    (catalog : List ModelAliasSpec) (policy : WarmupPolicy)
    (ro : ModelAliasSpec → Except RuntimeError Unit) :
    Except RuntimeError (List (String × ModelAliasSpec)) :=
  match buildValidate (providers.map Prod.fst) catalog [] with
  | .error e => .error e
  | .ok catalog_map =>
    match providerWarmupPhase policy providers with
    | .error e => .error e
    | .ok () =>
      match modelWarmupPhase ro catalog_map with
      | .error e => .error e
      | .ok () => .ok catalog_map

/-- C7 counterexample: registering a concrete spec whose provider id is
unregistered is rejected with an error of kind Config ("Unknown provider
..."), not with kind ProviderNotFound as the claim states. -/
theorem register_unknown_provider_counterexample :
    ModelRuntime.register { provider_ids := ["mock/embed"], catalog := [] }
      { exampleSpec with provider_id := "unknown/provider" } =
    .error (.Config
      "Unknown provider unknown/provider for alias embed/default") := by
  rfl

/-- C7 amended: for every spec passing `validate` whose provider id is not
registered, `register` rejects it — and `build` over a catalog containing
it fails — with an error of kind Config whose message names the unknown
provider; the ProviderNotFound kind is only produced inside
`resolve_and_load` when the provider is missing at load time. -/
theorem register_unknown_provider_config :
    ∀ (rt : RuntimeModel) (spec : ModelAliasSpec)
      (providers : List (String × Option RuntimeError)) (policy : WarmupPolicy)
      (ro : ModelAliasSpec → Except RuntimeError Unit),
      spec.validate = .ok () →
      (rt.provider_ids.contains spec.provider_id = false →
        ModelRuntime.register rt spec =
          .error (.Config ("Unknown provider " ++ spec.provider_id ++
            " for alias " ++ spec.«alias»))) ∧
      ((providers.map Prod.fst).contains spec.provider_id = false →
        build providers [spec] policy ro =
          .error (.Config ("Unknown provider " ++ spec.provider_id ++
            " for alias " ++ spec.«alias»))) := by
  intro rt spec providers policy ro hval
  constructor
  · intro hno
    have hmem : spec.provider_id ∉ rt.provider_ids := by simpa using hno
    simp [ModelRuntime.register, hval, hmem]
  · intro hno
    have hmem : spec.provider_id ∉ List.map Prod.fst providers := by simpa using hno
    simp [build, buildValidate, hval, hmem]

/-- Witness for the amended C7: `build` over a one-spec catalog naming an
unregistered provider fails with the Config error. -/
theorem register_unknown_provider_config_witness :
    build [("mock/embed", none)]
      [{ exampleSpec with provider_id := "unknown/provider" }] .Lazy
      (fun _ => .ok ()) =
    .error (.Config
      "Unknown provider unknown/provider for alias embed/default") :=
  (register_unknown_provider_config
    { provider_ids := ["mock/embed"], catalog := [] }
    { exampleSpec with provider_id := "unknown/provider" }
    [("mock/embed", none)] .Lazy (fun _ => .ok ()) rfl).2 rfl

/-- A failing Eager provider warmup yields a Load error for the phase. -/
theorem eagerProviderWarmup_fails (providers : List (String × Option RuntimeError))
    (h : ∃ p ∈ providers, p.2.isSome = true) :
    ∃ msg, eagerProviderWarmup providers = .error (.Load msg) := by
  induction providers with
  | nil => simp at h
  | cons p rest ih =>
    obtain ⟨id, res⟩ := p
    cases res with
    | some e => exact ⟨_, rfl⟩
    | none =>
      obtain ⟨q, hq, hsome⟩ := h
      rcases List.mem_cons.mp hq with rfl | hq2
      · simp at hsome
      · exact ih ⟨q, hq2, hsome⟩

/-- The model-warmup phase succeeds when every failing Eager spec is
optional. -/
theorem modelWarmupPhase_ok (ro : ModelAliasSpec → Except RuntimeError Unit)
    (l : List (String × ModelAliasSpec))
    (h : ∀ q ∈ l, q.2.warmup = .Eager → (∃ e, ro q.2 = .error e) →
      q.2.required = false) :
    modelWarmupPhase ro l = .ok () := by
  induction l with
  | nil => rfl
  | cons q rest ih =>
    obtain ⟨a, s⟩ := q
    have hrest : modelWarmupPhase ro rest = .ok () :=
      ih (fun p hp => h p (List.mem_cons.mpr (Or.inr hp)))
    cases hw : s.warmup with
    | Eager =>
      cases hro : ro s with
      | error e =>
        have hreq : s.required = false :=
          h (a, s) (List.mem_cons_self (a, s) rest) hw ⟨e, hro⟩
        simp [modelWarmupPhase, hw, hro, hreq, hrest]
      | ok u =>
        simp [modelWarmupPhase, hw, hro, hrest]
    | Background => simp [modelWarmupPhase, hw, hrest]
    | Lazy => simp [modelWarmupPhase, hw, hrest]

/-- The model-warmup phase aborts with the unwrapped resolve error of the
first required Eager spec that fails. -/
theorem modelWarmupPhase_aborts (ro : ModelAliasSpec → Except RuntimeError Unit)
    (l1 l2 : List (String × ModelAliasSpec)) (a : String) (s : ModelAliasSpec)
    (e : RuntimeError)
    (hbefore : ∀ q ∈ l1, q.2.warmup = .Eager → q.2.required = true →
      ∀ e2, ro q.2 ≠ .error e2)
    (hw : s.warmup = .Eager) (hreq : s.required = true) (hro : ro s = .error e) :
    modelWarmupPhase ro (l1 ++ (a, s) :: l2) = .error e := by
  induction l1 with
  | nil => simp [modelWarmupPhase, hw, hro, hreq]
  | cons q rest ih =>
    obtain ⟨a1, s1⟩ := q
    have htail : modelWarmupPhase ro (rest ++ (a, s) :: l2) = .error e :=
      ih (fun p hp => hbefore p (List.mem_cons.mpr (Or.inr hp)))
    cases hw1 : s1.warmup with
    | Eager =>
      cases hro1 : ro s1 with
      | error e2 =>
        have hreq1 : s1.required = false := by
          by_contra hcon
          have : s1.required = true := by
            cases hr : s1.required
            · exact absurd hr hcon
            · rfl
          exact hbefore (a1, s1) (List.mem_cons_self (a1, s1) rest) hw1 this e2 hro1
        simp [modelWarmupPhase, hw1, hro1, hreq1, htail]
      | ok u =>
        simp [modelWarmupPhase, hw1, hro1, htail]
    | Background => simp [modelWarmupPhase, hw1, htail]
    | Lazy => simp [modelWarmupPhase, hw1, htail]

/-- C8: during `build`, when the global warmup policy is Eager and any
provider warmup fails, `build` fails with kind Load; when a spec with
Eager warmup fails to resolve, `build` returns that error unwrapped if the
spec is required (taking the first such spec in iteration order), and
succeeds — continuing construction with the full catalog — when every
failing Eager spec is not required. -/
theorem build_warmup_failures :
    ∀ (providers : List (String × Option RuntimeError)) (catalog : List ModelAliasSpec)
      (policy : WarmupPolicy) (ro : ModelAliasSpec → Except RuntimeError Unit)
      (m m1 m2 : List (String × ModelAliasSpec)) (a : String) (s : ModelAliasSpec)
      (e : RuntimeError),
      (buildValidate (providers.map Prod.fst) catalog [] = .ok m →
        (∃ p ∈ providers, p.2.isSome = true) →
        ∃ msg, build providers catalog .Eager ro = .error (.Load msg)) ∧
      (buildValidate (providers.map Prod.fst) catalog [] = .ok m →
        providerWarmupPhase policy providers = .ok () →
        m = m1 ++ (a, s) :: m2 →
        (∀ q ∈ m1, q.2.warmup = .Eager → q.2.required = true →
          ∀ e2, ro q.2 ≠ .error e2) →
        s.warmup = .Eager → s.required = true → ro s = .error e →
        build providers catalog policy ro = .error e) ∧
      (buildValidate (providers.map Prod.fst) catalog [] = .ok m →
        providerWarmupPhase policy providers = .ok () →
        (∀ q ∈ m, q.2.warmup = .Eager → (∃ e2, ro q.2 = .error e2) →
          q.2.required = false) →
        build providers catalog policy ro = .ok m) := by
  intro providers catalog policy ro m m1 m2 a s e
  refine ⟨?_, ?_, ?_⟩
  · intro hval hfail
    obtain ⟨msg, hmsg⟩ := eagerProviderWarmup_fails providers hfail
    exact ⟨msg, by simp [build, hval, providerWarmupPhase, hmsg]⟩
  · intro hval hprov hm hbefore hw hreq hro
    subst hm
    simp [build, hval, hprov,
      modelWarmupPhase_aborts ro m1 m2 a s e hbefore hw hreq hro]
  · intro hval hprov hok
    simp [build, hval, hprov, modelWarmupPhase_ok ro m hok]

/-- Witness for C8: a required Eager spec whose resolve fails aborts a
concrete `build` with that error. -/
theorem build_warmup_failures_witness :
    build [("local/candle", none)]
      [{ exampleSpec with warmup := .Eager, required := true }] .Eager
      (fun _ => .error (.InferenceError "boom")) =
    .error (.InferenceError "boom") :=
  (build_warmup_failures [("local/candle", none)]
    [{ exampleSpec with warmup := .Eager, required := true }] .Eager
    (fun _ => .error (.InferenceError "boom"))
    [("embed/default", { exampleSpec with warmup := .Eager, required := true })]
    [] []
    "embed/default" { exampleSpec with warmup := .Eager, required := true }
    (.InferenceError "boom")).2.1 rfl rfl rfl
    (by simp) rfl rfl rfl

end UniXervo
